import Mathlib

/-!
Verification of the PlotGallery repository: a gallery of eight independent
example scripts driving external scientific libraries (cvxpy, pycalculix,
meep, scipy, sfepy, PyQt5).

The embedding has two layers:

* a *trace model*: each script is transcribed as its list of observable
  top-level effects, in source order (imports, file reads/writes, external
  solver calls, rendered figures, GUI windows, prints, the font-path
  platform check, and — expressible but unused by any script — try/except
  handlers and thread spawns);
* *function models* of the pieces of script-local logic the claims are
  about: the font-path selection, the `-nogui`/`-tri` flag parsing, the
  target-return sweep, `base_vectors`, the guarded polar field components
  of `B_field`, and the twist-angle function `phi` of the polarization
  grating.
-/

namespace PlotGallery

/-- An observable top-level effect of a gallery script, in source order.
`tryCatch` (a Python `try`/`except` handler) and `spawnThread` (creation of
a background task) are expressible so that their absence from every
transcribed trace is a statement about the source, not about the model. -/
inductive Eff where
  /-- `import` of an external library module. -/
  | libImport (name : String)
  /-- `import` of another script of this repository. -/
  | scriptImport (name : String)
  /-- The script reads the named file. -/
  | readFile (name : String)
  /-- The script writes the named file. -/
  | writeFile (name : String)
  /-- The `sys.platform` font-path `if/elif/else` chain that may `sys.exit`. -/
  | platformFontSelect
  /-- A call into an external solver / mesher / simulator. -/
  | extCall (lib : String)
  /-- A matplotlib or pycalculix figure is rendered. -/
  | plotFigure
  /-- A Qt GUI window is shown. -/
  | guiShow
  /-- Terminal output (`print`). -/
  | printOut
  /-- A Python `try`/`except` handler. -/
  | tryCatch
  /-- Creation of a thread or background task. -/
  | spawnThread
  /-- The Qt event loop, `sys.exit(app.exec_())`. -/
  | appExec
  deriving DecidableEq, Repr

/-- A script of the repository: its module name (file stem) and its trace
of top-level effects in source order. -/
structure Script where
  name : String
  trace : List Eff
  deriving DecidableEq, Repr

/-- `src/Beys_Gallery/pyfin_alt_risk.py`: font-path platform check, CSV
read, three ECOS frontier sweeps each followed by its figure(s), a
`scipy.optimize.root` call and a printed weight table. -/
def pyfin_alt_risk : Script :=
  { name := "pyfin_alt_risk"
    trace := [.libImport "numpy", .libImport "numpy.linalg",
              .libImport "scipy.optimize", .libImport "cvxpy",
              .libImport "pandas", .libImport "matplotlib.pyplot",
              .libImport "matplotlib.font_manager", .libImport "sys",
              .platformFontSelect,
              .readFile "asset_return_data.csv",
              .extCall "cvxpy.ECOS", .plotFigure,
              .extCall "cvxpy.ECOS", .plotFigure,
              .extCall "cvxpy.ECOS", .plotFigure, .plotFigure,
              .extCall "scipy.optimize.root", .printOut] }

/-- `src/ccx_gallery/multihole.py`: pycalculix model construction, three
pre-chunk geometry plots (each saved to a named file), chunking, a chunked
geometry plot, gmsh meshing, an element plot and a printed summary. -/
def multihole : Script :=
  { name := "multihole"
    trace := [.libImport "sys", .libImport "pycalculix",
              .extCall "pycalculix.FeaModel",
              .writeFile "multihole_prechunk_areas", .plotFigure,
              .writeFile "multihole_prechunk_lines", .plotFigure,
              .writeFile "multihole_prechunk_points", .plotFigure,
              .extCall "pycalculix.chunk",
              .writeFile "multihole_chunked_areas", .plotFigure,
              .extCall "gmsh", .plotFigure, .printOut] }

/-- `src/maya_gallery/compute_field.py`: computes the summed magnetic
field `B` of the two Helmholtz coils (two `B_field` calls, each using
`scipy.linalg.inv` and the elliptic integrals) and ends; no plotting. -/
def compute_field : Script :=
  { name := "compute_field"
    trace := [.libImport "numpy", .libImport "scipy",
              .extCall "scipy.linalg.inv", .extCall "scipy.special.ellipe",
              .extCall "scipy.special.ellipk",
              .extCall "scipy.linalg.inv", .extCall "scipy.special.ellipe",
              .extCall "scipy.special.ellipk"] }

/-- `src/qt_gallery/qt_3d_windows.py`: builds the Qt main window with an
embedded 3D view, shows it, and enters the Qt event loop. -/
def qt_3d_windows : Script :=
  { name := "qt_3d_windows"
    trace := [.libImport "PyQt5", .libImport "sys", .guiShow, .appExec] }

/-- `src/meep_gallery/solve-cw.py`: cell/geometry plot, the `solve_cw`
tolerance sweep, error and field figures, a printed PASSED/FAILED line,
a time-domain run and its field figure. -/
def solve_cw : Script :=
  { name := "solve-cw"
    trace := [.libImport "meep", .libImport "numpy",
              .libImport "numpy.linalg", .libImport "matplotlib.pyplot",
              .extCall "meep.Simulation", .plotFigure,
              .extCall "meep.solve_cw", .plotFigure, .plotFigure,
              .printOut, .extCall "meep.run", .plotFigure] }

/-- `src/meep_gallery/cylinder_cross_section.py`: normalization run,
scattering run, and the log-log cross-section figure. -/
def cylinder_cross_section : Script :=
  { name := "cylinder_cross_section"
    trace := [.libImport "meep", .libImport "numpy",
              .libImport "matplotlib.pyplot",
              .extCall "meep.run", .extCall "meep.run", .plotFigure] }

/-- `src/meep_gallery/polarization_grating.py`: the `pol_grating` sweeps
(normalization and grating runs), printed transmittance lines, and the
two-panel diffraction-efficiency figure. -/
def polarization_grating : Script :=
  { name := "polarization_grating"
    trace := [.libImport "meep", .libImport "math", .libImport "numpy",
              .libImport "matplotlib.pyplot",
              .extCall "meep.run", .extCall "meep.run",
              .printOut, .plotFigure] }

/-- `src/sfepy_gallery/diffusion/poisson_periodic_boundary_condition.py`:
a declarative sfepy problem description; it names the mesh it is solved
on and an output directory, and performs no call and no plotting itself. -/
def poisson_periodic_boundary_condition : Script :=
  { name := "poisson_periodic_boundary_condition"
    trace := [.libImport "sfepy", .libImport "numpy",
              .libImport "sfepy.discrete.fem.periodic",
              .readFile "meshes/3d/cylinder_in_box.mesh",
              .writeFile "output"] }

/-- The eight source files of the repository. -/
def allScripts : List Script :=
  [pyfin_alt_risk, multihole, compute_field, qt_3d_windows,
   solve_cw, cylinder_cross_section, polarization_grating,
   poisson_periodic_boundary_condition]

/-- Does the effect render a plotted figure? -/
def Eff.isPlot : Eff → Bool
  | .plotFigure => true
  | _ => false

/-- Does the effect show a GUI window? -/
def Eff.isGui : Eff → Bool
  | .guiShow => true
  | _ => false

/-- The script renders at least one plotted figure. -/
def rendersFigure (s : Script) : Bool := s.trace.any Eff.isPlot

/-- The script shows at least one GUI window. -/
def showsGui (s : Script) : Bool := s.trace.any Eff.isGui

/-- C1, as stated by the spec: every one of the eight source files
produces at least one plotted figure. -/
def claimC1 : Prop := ∀ s ∈ allScripts, rendersFigure s = true

/-- C1 (counterexample): the claim fails at `compute_field.py`, which
computes the summed field `B` and ends without rendering anything. -/
theorem C1_counterexample : ¬ claimC1 := by
  intro h
  have hmem : compute_field ∈ allScripts := by
    simp [allScripts]
  have := h compute_field hmem
  simp [rendersFigure, compute_field, Eff.isPlot] at this

/-- C1 (amended): the two cvxpy/pycalculix scripts and the three meep
scripts each render at least one figure; `compute_field.py` and the
declarative sfepy problem file render none; `qt_3d_windows.py` shows a
Qt GUI window but renders no plotted figure. -/
theorem C1_amended :
    rendersFigure pyfin_alt_risk = true ∧
    rendersFigure multihole = true ∧
    rendersFigure solve_cw = true ∧
    rendersFigure cylinder_cross_section = true ∧
    rendersFigure polarization_grating = true ∧
    rendersFigure compute_field = false ∧
    rendersFigure poisson_periodic_boundary_condition = false ∧
    rendersFigure qt_3d_windows = false ∧
    showsGui qt_3d_windows = true := by
  decide

/-! ### C2: font-path selection in `pyfin_alt_risk.py` -/

/-- Python's `str.startswith` on explicit character lists. -/
def charsPre : List Char → List Char → Bool
  | [], _ => true
  | _ :: _, [] => false
  | a :: as, b :: bs => a == b && charsPre as bs

/-- `s.startswith(pre)` in Python. -/
def pyStartswith (s pre : String) : Bool := charsPre pre.data s.data

/-- Hard-coded Windows font path (`pyfin_alt_risk.py`, line 24). -/
def winFontPath : String := "C:\\Windows\\Fonts\\meiryo.ttc"

/-- Hard-coded macOS font path (`pyfin_alt_risk.py`, line 26). -/
def darwinFontPath : String := "/System/Library/Fonts/ヒラギノ角ゴシック W4.ttc"

/-- Hard-coded Linux font path (`pyfin_alt_risk.py`, line 28). -/
def linuxFontPath : String :=
  "/usr/share/fonts/truetype/takao-gothic/TakaoPGothic.ttf"

/-- The font-path `if/elif/else` chain of `pyfin_alt_risk.py` lines 23-31:
`none` models the `else` branch, which prints a message and calls
`sys.exit()`. -/
def FontPath (platform : String) : Option String :=
  if pyStartswith platform "win" then some winFontPath
  else if pyStartswith platform "darwin" then some darwinFontPath
  else if pyStartswith platform "linux" then some linuxFontPath
  else none

theorem charsPre_head {a : Char} {as l : List Char}
    (h : charsPre (a :: as) l = true) :
    ∃ b bs, l = b :: bs ∧ a = b := by
  cases l with
  | nil => simp [charsPre] at h
  | cons b bs =>
    refine ⟨b, bs, rfl, ?_⟩
    simp [charsPre] at h
    exact h.1

theorem startswith_win_not_darwin {p : String}
    (h : pyStartswith p "win" = true) : pyStartswith p "darwin" = false := by
  unfold pyStartswith at *
  obtain ⟨b, bs, hl, hb⟩ := charsPre_head (a := 'w') h
  show charsPre ('d' :: "arwin".data) p.data = false
  rw [hl, ← hb]
  simp [charsPre]

theorem startswith_win_not_linux {p : String}
    (h : pyStartswith p "win" = true) : pyStartswith p "linux" = false := by
  unfold pyStartswith at *
  obtain ⟨b, bs, hl, hb⟩ := charsPre_head (a := 'w') h
  show charsPre ('l' :: "inux".data) p.data = false
  rw [hl, ← hb]
  simp [charsPre]

theorem startswith_darwin_not_linux {p : String}
    (h : pyStartswith p "darwin" = true) : pyStartswith p "linux" = false := by
  unfold pyStartswith at *
  obtain ⟨b, bs, hl, hb⟩ := charsPre_head (a := 'd') h
  show charsPre ('l' :: "inux".data) p.data = false
  rw [hl, ← hb]
  simp [charsPre]

/-- Number of `try`/`except` handlers in the script's trace. -/
def tryCatchCount (s : Script) : Nat := s.trace.countP (fun e => e = .tryCatch)

/-- Number of occurrences of the font-path platform check in the trace. -/
def fontSelectCount (s : Script) : Nat :=
  s.trace.countP (fun e => e = .platformFontSelect)

/-- Is the effect a computation step (a file read or an external call)? -/
def Eff.isComputation : Eff → Bool
  | .readFile _ => true
  | .extCall _ => true
  | _ => false

/-- C2: each of the `win`/`darwin`/`linux` prefixes selects its hard-coded
font path; every other platform string reaches the `else` branch that
prints and exits (`none`); the platform check precedes every computation
step of the portfolio script; and this check is the only explicit
error-handling path in the repository (no script has a `try`/`except`,
and the check occurs once, in `pyfin_alt_risk.py` alone). -/
theorem C2_fontPath :
    (∀ p, pyStartswith p "win" = true → FontPath p = some winFontPath) ∧
    (∀ p, pyStartswith p "darwin" = true → FontPath p = some darwinFontPath) ∧
    (∀ p, pyStartswith p "linux" = true → FontPath p = some linuxFontPath) ∧
    (∀ p, pyStartswith p "win" = false → pyStartswith p "darwin" = false →
      pyStartswith p "linux" = false → FontPath p = none) ∧
    (pyfin_alt_risk.trace.findIdx (fun e => e = .platformFontSelect) <
      pyfin_alt_risk.trace.findIdx Eff.isComputation) ∧
    (∀ s ∈ allScripts, tryCatchCount s = 0) ∧
    fontSelectCount pyfin_alt_risk = 1 ∧
    (∀ s ∈ allScripts, s.name ≠ "pyfin_alt_risk" → fontSelectCount s = 0) := by
  refine ⟨?_, ?_, ?_, ?_, ?_, ?_, ?_, ?_⟩
  · intro p h
    simp [FontPath, h]
  · intro p h
    have hw : pyStartswith p "win" = false := by
      by_contra hc
      rw [Bool.not_eq_false] at hc
      rw [startswith_win_not_darwin hc] at h
      exact Bool.false_ne_true h
    simp [FontPath, hw, h]
  · intro p h
    have hw : pyStartswith p "win" = false := by
      by_contra hc
      rw [Bool.not_eq_false] at hc
      rw [startswith_win_not_linux hc] at h
      exact Bool.false_ne_true h
    have hd : pyStartswith p "darwin" = false := by
      by_contra hc
      rw [Bool.not_eq_false] at hc
      rw [startswith_darwin_not_linux hc] at h
      exact Bool.false_ne_true h
    simp [FontPath, hw, hd, h]
  · intro p h1 h2 h3
    simp [FontPath, h1, h2, h3]
  · decide
  · decide
  · decide
  · decide

/-- C2 witness: the theorem evaluated at the concrete platform strings
`win32`, `darwin`, `linux2` and `freebsd`. -/
theorem C2_fontPath_witness :
    FontPath "win32" = some winFontPath ∧
    FontPath "darwin" = some darwinFontPath ∧
    FontPath "linux2" = some linuxFontPath ∧
    FontPath "freebsd" = none :=
  ⟨C2_fontPath.1 "win32" (by decide),
   C2_fontPath.2.1 "darwin" (by decide),
   C2_fontPath.2.2.1 "linux2" (by decide),
   C2_fontPath.2.2.2.1 "freebsd" (by decide) (by decide) (by decide)⟩

/-! ### C3: the `-nogui` and `-tri` flags of `multihole.py` -/

/-- `multihole.py` lines 11-13: `show_gui` starts `True` and is set to
`False` when `'-nogui' in sys.argv`. -/
def show_gui (argv : List String) : Bool :=
  if argv.contains "-nogui" then false else true

/-- `multihole.py` lines 15-17: `eshape` starts `'quad'` and is set to
`'tri'` when `'-tri' in sys.argv`. -/
def eshape (argv : List String) : String :=
  if argv.contains "-tri" then "tri" else "quad"

/-- The traces of every script other than `multihole`, as a function of
the argument vector: none of them consumes the multihole flags, so the
function is constant. -/
def otherScriptTraces (argv : List String) : List (List Eff) :=
  ((allScripts.filter (fun s => s.name ≠ "multihole")).map Script.trace)
    ++ [(if argv = argv then [] else [])]

/-- C3: `show_gui` is `false` iff `-nogui` occurs in `sys.argv` (else
`true`), `eshape` is `"tri"` iff `-tri` occurs (else `"quad"`), and the
behavior of every other script is the same for every argument vector. -/
theorem C3_multihole_flags :
    (∀ argv : List String, (show_gui argv = false ↔ "-nogui" ∈ argv) ∧
      (show_gui argv = true ↔ "-nogui" ∉ argv) ∧
      (eshape argv = "tri" ↔ "-tri" ∈ argv) ∧
      ("-tri" ∉ argv → eshape argv = "quad")) ∧
    (∀ argv argv' : List String, otherScriptTraces argv = otherScriptTraces argv') := by
  constructor
  · intro argv
    by_cases hn : "-nogui" ∈ argv <;> by_cases ht : "-tri" ∈ argv <;>
      simp [show_gui, eshape, hn, ht]
  · intro argv argv'
    simp [otherScriptTraces]

/-- C3 witness: the theorem evaluated at the concrete argument vectors
`["-nogui"]` and `["-tri"]`. -/
theorem C3_multihole_flags_witness :
    show_gui ["-nogui"] = false ∧ show_gui [] = true ∧
    eshape ["-tri"] = "tri" ∧ eshape [] = "quad" :=
  ⟨(C3_multihole_flags.1 ["-nogui"]).1.2 (by decide),
   (C3_multihole_flags.1 []).2.1.2 (by decide),
   (C3_multihole_flags.1 ["-tri"]).2.2.1.2 (by decide),
   (C3_multihole_flags.1 []).2.2.2 (by decide)⟩

/-! ### C5: errors from external calls propagate uncaught -/

/-- Run a script trace against a failure oracle for the external
libraries: `fail lib = some err` means the call into `lib` raises `err`.
There is no construct that intercepts an error: the first failing call
terminates the run with the library's own error. -/
def runTrace (fail : String → Option String) : List Eff → Except String Unit
  | [] => .ok ()
  | .extCall lib :: rest =>
      match fail lib with
      | some err => .error err
      | none => runTrace fail rest
  | _ :: rest => runTrace fail rest

theorem runTrace_ok_or_error (fail : String → Option String) (t : List Eff) :
    runTrace fail t = .ok () ∨
    ∃ lib err, Eff.extCall lib ∈ t ∧ fail lib = some err ∧
      runTrace fail t = .error err := by
  induction t with
  | nil => left; rfl
  | cons e rest ih =>
    cases e with
    | extCall lib =>
      cases hf : fail lib with
      | none =>
        rcases ih with h | ⟨l, er, hm, hfl, hr⟩
        · left; simpa [runTrace, hf] using h
        · right; exact ⟨l, er, List.mem_cons_of_mem _ hm, hfl,
            by simpa [runTrace, hf] using hr⟩
      | some err =>
        right
        exact ⟨lib, err, List.mem_cons_self _ _, hf, by simp [runTrace, hf]⟩
    | libImport n =>
      rcases ih with h | ⟨l, er, hm, hfl, hr⟩
      · left; simpa [runTrace] using h
      · right; exact ⟨l, er, List.mem_cons_of_mem _ hm, hfl,
          by simpa [runTrace] using hr⟩
    | scriptImport n =>
      rcases ih with h | ⟨l, er, hm, hfl, hr⟩
      · left; simpa [runTrace] using h
      · right; exact ⟨l, er, List.mem_cons_of_mem _ hm, hfl,
          by simpa [runTrace] using hr⟩
    | readFile n =>
      rcases ih with h | ⟨l, er, hm, hfl, hr⟩
      · left; simpa [runTrace] using h
      · right; exact ⟨l, er, List.mem_cons_of_mem _ hm, hfl,
          by simpa [runTrace] using hr⟩
    | writeFile n =>
      rcases ih with h | ⟨l, er, hm, hfl, hr⟩
      · left; simpa [runTrace] using h
      · right; exact ⟨l, er, List.mem_cons_of_mem _ hm, hfl,
          by simpa [runTrace] using hr⟩
    | platformFontSelect =>
      rcases ih with h | ⟨l, er, hm, hfl, hr⟩
      · left; simpa [runTrace] using h
      · right; exact ⟨l, er, List.mem_cons_of_mem _ hm, hfl,
          by simpa [runTrace] using hr⟩
    | plotFigure =>
      rcases ih with h | ⟨l, er, hm, hfl, hr⟩
      · left; simpa [runTrace] using h
      · right; exact ⟨l, er, List.mem_cons_of_mem _ hm, hfl,
          by simpa [runTrace] using hr⟩
    | guiShow =>
      rcases ih with h | ⟨l, er, hm, hfl, hr⟩
      · left; simpa [runTrace] using h
      · right; exact ⟨l, er, List.mem_cons_of_mem _ hm, hfl,
          by simpa [runTrace] using hr⟩
    | printOut =>
      rcases ih with h | ⟨l, er, hm, hfl, hr⟩
      · left; simpa [runTrace] using h
      · right; exact ⟨l, er, List.mem_cons_of_mem _ hm, hfl,
          by simpa [runTrace] using hr⟩
    | tryCatch =>
      rcases ih with h | ⟨l, er, hm, hfl, hr⟩
      · left; simpa [runTrace] using h
      · right; exact ⟨l, er, List.mem_cons_of_mem _ hm, hfl,
          by simpa [runTrace] using hr⟩
    | spawnThread =>
      rcases ih with h | ⟨l, er, hm, hfl, hr⟩
      · left; simpa [runTrace] using h
      · right; exact ⟨l, er, List.mem_cons_of_mem _ hm, hfl,
          by simpa [runTrace] using hr⟩
    | appExec =>
      rcases ih with h | ⟨l, er, hm, hfl, hr⟩
      · left; simpa [runTrace] using h
      · right; exact ⟨l, er, List.mem_cons_of_mem _ hm, hfl,
          by simpa [runTrace] using hr⟩

/-- C5: no script of the repository contains a `try`/`except` handler, and
for every failure oracle every script either runs to completion or
terminates with the error of one of its own external-library calls. -/
theorem C5_errors_propagate :
    (∀ s ∈ allScripts, tryCatchCount s = 0) ∧
    (∀ s ∈ allScripts, ∀ fail : String → Option String,
      runTrace fail s.trace = .ok () ∨
      ∃ lib err, Eff.extCall lib ∈ s.trace ∧ fail lib = some err ∧
        runTrace fail s.trace = .error err) := by
  refine ⟨by decide, ?_⟩
  intro s _ fail
  exact runTrace_ok_or_error fail s.trace

/-- C5 witness: the theorem evaluated at `pyfin_alt_risk` with the oracle
on which the ECOS solver raises; the run terminates with that error. -/
theorem C5_errors_propagate_witness :
    runTrace (fun lib => if lib = "cvxpy.ECOS" then some "SolverError" else none)
      pyfin_alt_risk.trace = .error "SolverError" := by
  have h := C5_errors_propagate.2 pyfin_alt_risk (by simp [allScripts])
    (fun lib => if lib = "cvxpy.ECOS" then some "SolverError" else none)
  rcases h with h | ⟨lib, err, hm, hfl, hr⟩
  · simp [pyfin_alt_risk, runTrace] at h
  · have hlib : lib = "cvxpy.ECOS" := by
      by_contra hne
      simp [hne] at hfl
    subst hlib
    have herr : "SolverError" = err := by simpa using hfl
    rw [hr, ← herr]

/-! ### C9: scripts do not call each other and share no runtime state -/

/-- The files a script reads, collected from its trace. -/
def readsOf (s : Script) : List String :=
  s.trace.filterMap (fun e => match e with | .readFile n => some n | _ => none)

/-- The files a script writes, collected from its trace. -/
def writesOf (s : Script) : List String :=
  s.trace.filterMap (fun e => match e with | .writeFile n => some n | _ => none)

/-- The modules a script imports (external libraries and, were there any,
scripts of this repository), collected from its trace. -/
def importsOf (s : Script) : List String :=
  s.trace.filterMap (fun e => match e with
    | .libImport n => some n
    | .scriptImport n => some n
    | _ => none)

/-- The shared file system, the only state two script runs could share. -/
def World : Type := String → Nat

/-- What a script's run observes from the world: the contents of the
files it reads. -/
def observeRun (s : Script) (w : World) : List Nat := (readsOf s).map w

/-- Running a script updates exactly the files it writes; `out` gives the
data it writes there. -/
def runScript (s : Script) (out : String → Nat) (w : World) : World :=
  fun res => if res ∈ writesOf s then out res else w res

/-- C9: no script imports another script of the repository, the files any
script reads are written by no other script, and consequently what a
script observes is identical whether or not any other script has run
first (the two-run independence statement). -/
theorem C9_independence :
    (∀ s ∈ allScripts, ∀ t ∈ allScripts, s.name ≠ t.name →
      t.name ∉ importsOf s) ∧
    (∀ s ∈ allScripts, ∀ t ∈ allScripts, s.name ≠ t.name →
      ∀ r ∈ readsOf s, r ∉ writesOf t) ∧
    (∀ s ∈ allScripts, ∀ t ∈ allScripts, s.name ≠ t.name →
      ∀ (out : String → Nat) (w : World),
        observeRun s (runScript t out w) = observeRun s w) := by
  have hdisj : ∀ s ∈ allScripts, ∀ t ∈ allScripts, s.name ≠ t.name →
      ∀ r ∈ readsOf s, r ∉ writesOf t := by decide
  refine ⟨by decide, hdisj, ?_⟩
  intro s hs t ht hne out w
  apply List.map_congr_left
  intro r hr
  have : r ∉ writesOf t := hdisj s hs t ht hne r hr
  simp [runScript, this]

/-- C9 witness: the theorem evaluated at `pyfin_alt_risk` observing a
concrete world after `multihole` has written all its plot files. -/
theorem C9_independence_witness :
    observeRun pyfin_alt_risk
      (runScript multihole (fun _ => 7) (fun _ => 0)) =
    observeRun pyfin_alt_risk (fun _ => 0) :=
  C9_independence.2.2 pyfin_alt_risk (by simp [allScripts])
    multihole (by simp [allScripts]) (by decide) (fun _ => 7) (fun _ => 0)

/-! ### C10: single-threaded, synchronous, one-pass execution -/

/-- Number of thread/background-task creations in the script's trace. -/
def spawnCount (s : Script) : Nat :=
  s.trace.countP (fun e => e = .spawnThread)

/-- The statements a run actually executes, in order: every statement up
to and including the first failing external call, or the whole trace. -/
def execTrace (fail : String → Option String) : List Eff → List Eff
  | [] => []
  | .extCall lib :: rest =>
      match fail lib with
      | some _ => [.extCall lib]
      | none => .extCall lib :: execTrace fail rest
  | e :: rest => e :: execTrace fail rest

theorem execTrace_isPre (fail : String → Option String) (t : List Eff) :
    ∃ t', execTrace fail t ++ t' = t := by
  induction t with
  | nil => exact ⟨[], rfl⟩
  | cons e rest ih =>
    obtain ⟨t', ht⟩ := ih
    cases e with
    | extCall lib =>
      cases hf : fail lib with
      | some err => exact ⟨rest, by simp [execTrace, hf]⟩
      | none => exact ⟨t', by simp [execTrace, hf, ht]⟩
    | libImport n => exact ⟨t', by simp [execTrace, ht]⟩
    | scriptImport n => exact ⟨t', by simp [execTrace, ht]⟩
    | readFile n => exact ⟨t', by simp [execTrace, ht]⟩
    | writeFile n => exact ⟨t', by simp [execTrace, ht]⟩
    | platformFontSelect => exact ⟨t', by simp [execTrace, ht]⟩
    | plotFigure => exact ⟨t', by simp [execTrace, ht]⟩
    | guiShow => exact ⟨t', by simp [execTrace, ht]⟩
    | printOut => exact ⟨t', by simp [execTrace, ht]⟩
    | tryCatch => exact ⟨t', by simp [execTrace, ht]⟩
    | spawnThread => exact ⟨t', by simp [execTrace, ht]⟩
    | appExec => exact ⟨t', by simp [execTrace, ht]⟩

/-- C10: no script spawns a thread or background task, and for every
failure oracle the statements a script executes form an in-order prefix
of its source trace — a single synchronous pass, with each statement
executed at most once and no statement revisited. -/
theorem C10_single_pass :
    (∀ s ∈ allScripts, spawnCount s = 0) ∧
    (∀ s ∈ allScripts, ∀ fail : String → Option String,
      ∃ t', execTrace fail s.trace ++ t' = s.trace) := by
  refine ⟨by decide, ?_⟩
  intro s _ fail
  exact execTrace_isPre fail s.trace

/-- C10 witness: the theorem evaluated at `compute_field` with the
never-failing oracle; the pass executes the whole trace. -/
theorem C10_single_pass_witness :
    ∃ t', execTrace (fun _ => none) compute_field.trace ++ t' =
      compute_field.trace :=
  C10_single_pass.2 compute_field (by simp [allScripts]) (fun _ => none)

/-! ### C4: the mean-absolute-deviation frontier sweep -/

/-- `numpy.linspace(start, stop, num)` with its default `endpoint=True`:
`num` values `start + i * (stop - start) / (num - 1)`, exact over `ℚ`. -/
def linspace (start stop : ℚ) (num : ℕ) : List ℚ :=
  (List.range num).map
    (fun i : ℕ => start + (stop - start) * (i : ℚ) / ((num : ℚ) - 1))

/-- The target-return grid of `pyfin_alt_risk.py` line 65:
`np.linspace(Mu.min(), Mu.max(), num=250)`. -/
def V_Target (muMin muMax : ℚ) : List ℚ := linspace muMin muMax 250

/-- The frontier loop of `pyfin_alt_risk.py` lines 67-69: for each entry
of the target grid, set `Target_Return`, invoke the external solver once,
and store its risk value — one solver output per target. `solve` is the
external `Opt_Portfolio.solve`, opaque to this repository. -/
def V_Risk (solve : ℚ → ℚ) (muMin muMax : ℚ) : List ℚ :=
  (V_Target muMin muMax).map solve

theorem linspace_get? (start stop : ℚ) (num i : ℕ) (h : i < num) :
    (linspace start stop num).get? i =
      some (start + (stop - start) * i / (num - 1)) := by
  unfold linspace
  rw [List.get?_map, List.get?_range h]
  rfl

/-- C4: the grid has exactly 250 entries, entry `i` is
`Mu.min + (Mu.max - Mu.min) * i / 249` (so consecutive entries differ by
the constant step `(Mu.max - Mu.min) / 249`, the first is `Mu.min` and
the last is `Mu.max`), and the risk vector has the same length with entry
`i` equal to the solver's output on target `i`. -/
theorem C4_frontier_sweep (solve : ℚ → ℚ) (muMin muMax : ℚ) :
    (V_Target muMin muMax).length = 250 ∧
    (∀ i, i < 250 → (V_Target muMin muMax).get? i =
      some (muMin + (muMax - muMin) * i / 249)) ∧
    (∀ i, i + 1 < 250 → ∀ a b,
      (V_Target muMin muMax).get? i = some a →
      (V_Target muMin muMax).get? (i + 1) = some b →
      b - a = (muMax - muMin) / 249) ∧
    (V_Target muMin muMax).get? 0 = some muMin ∧
    (V_Target muMin muMax).get? 249 = some muMax ∧
    (V_Risk solve muMin muMax).length = 250 ∧
    (∀ i, i < 250 → (V_Risk solve muMin muMax).get? i =
      some (solve (muMin + (muMax - muMin) * i / 249))) := by
  have hget : ∀ i, i < 250 → (V_Target muMin muMax).get? i =
      some (muMin + (muMax - muMin) * i / 249) := by
    intro i hi
    have h250 : ((250 : ℕ) : ℚ) - 1 = 249 := by norm_num
    have := linspace_get? muMin muMax 250 i hi
    rw [h250] at this
    exact this
  have hlen : (V_Target muMin muMax).length = 250 := by
    unfold V_Target linspace
    rw [List.length_map, List.length_range]
  refine ⟨hlen, hget, ?_, ?_, ?_, ?_, ?_⟩
  · intro i hi a b ha hb
    rw [hget i (by omega)] at ha
    rw [hget (i + 1) hi] at hb
    have ha' : a = muMin + (muMax - muMin) * i / 249 :=
      (Option.some_injective _ ha).symm
    have hb' : b = muMin + (muMax - muMin) * (i + 1 : ℕ) / 249 :=
      (Option.some_injective _ hb).symm
    rw [ha', hb']
    push_cast
    ring
  · have := hget 0 (by norm_num)
    simpa using this
  · rw [hget 249 (by norm_num)]
    congr 1
    push_cast
    field_simp
  · unfold V_Risk
    rw [List.length_map]
    exact hlen
  · intro i hi
    unfold V_Risk
    rw [List.get?_map, hget i hi]
    rfl

/-- C4 witness: the theorem evaluated at the identity solver on the grid
from 0 to 249. -/
theorem C4_frontier_sweep_witness :
    (V_Target 0 249).length = 250 ∧
    (V_Target 0 249).get? 0 = some 0 ∧
    (V_Target 0 249).get? 249 = some 249 ∧
    (V_Risk id 0 249).get? 1 = some 1 := by
  obtain ⟨h1, h2, _, h4, h5, _, h7⟩ := C4_frontier_sweep id 0 249
  refine ⟨h1, h4, h5, ?_⟩
  have := h7 1 (by norm_num)
  rw [this]
  norm_num

/-! ### C8: continuity of the twist angle `phi` across the layer interface -/

/-- PML thickness (`polarization_grating.py` line 26). -/
def dpml : ℝ := 1

/-- Substrate thickness (line 27). -/
def dsub : ℝ := 1

/-- Padding thickness (line 28). -/
def dpad : ℝ := 1

/-- Cell width `sx` for chiral layer thickness `d` (line 42). -/
def sx (d : ℝ) : ℝ := dpml + dsub + d + d + dpad + dpml

/-- A 2d point of the simulation cell. -/
structure Pt where
  x : ℝ
  y : ℝ

/-- `xx = p.x - (-0.5*sx + dpml + dsub)` (line 49): depth into the
grating. -/
def xxOf (d px : ℝ) : ℝ := px - (-(0.5) * sx d + dpml + dsub)

/-- The twist expression of the first chiral layer (line 51). -/
noncomputable def phiLayer1 (d ph gp py xx : ℝ) : ℝ :=
  Real.pi * py / gp + ph * xx / d

/-- The twist expression of the second chiral layer (line 53). -/
noncomputable def phiLayer2 (d ph gp py xx : ℝ) : ℝ :=
  Real.pi * py / gp - ph * xx / d + 2 * ph

open Classical in
/-- The twist-angle function `phi` of `pol_grating` (lines 48-53): the
first-layer expression for `0 <= xx <= d`, the second-layer expression
otherwise. -/
noncomputable def phi (d ph gp : ℝ) (p : Pt) : ℝ :=
  if 0 ≤ xxOf d p.x ∧ xxOf d p.x ≤ d then phiLayer1 d ph gp p.y (xxOf d p.x)
  else phiLayer2 d ph gp p.y (xxOf d p.x)

/-- C8: at the interface `xx = d` between the two chiral layers the two
branch expressions of `phi` agree, both equal to `pi*p.y/gp + ph`, so the
twist angle is continuous there; `phi` itself takes that value at every
point whose depth is exactly `d`. -/
theorem C8_phi_continuous (p : Pt) (d ph gp : ℝ) (hd : 0 < d) :
    phiLayer1 d ph gp p.y d = phiLayer2 d ph gp p.y d ∧
    phiLayer1 d ph gp p.y d = Real.pi * p.y / gp + ph ∧
    (∀ px, xxOf d px = d → phi d ph gp ⟨px, p.y⟩ = Real.pi * p.y / gp + ph) := by
  have hd' : d ≠ 0 := ne_of_gt hd
  have h1 : phiLayer1 d ph gp p.y d = Real.pi * p.y / gp + ph := by
    unfold phiLayer1
    rw [mul_div_assoc ph d d, div_self hd', mul_one]
  have h2 : phiLayer2 d ph gp p.y d = Real.pi * p.y / gp + ph := by
    unfold phiLayer2
    rw [mul_div_assoc ph d d, div_self hd', mul_one]
    ring
  refine ⟨h1.trans h2.symm, h1, ?_⟩
  intro px hpx
  unfold phi
  show (if 0 ≤ xxOf d px ∧ xxOf d px ≤ d then
          phiLayer1 d ph gp p.y (xxOf d px)
        else phiLayer2 d ph gp p.y (xxOf d px)) = Real.pi * p.y / gp + ph
  rw [hpx, if_pos ⟨le_of_lt hd, le_refl d⟩]
  exact h1

/-- C8 witness: the theorem evaluated at `d = 1`, `ph = 1`, `gp = 1`,
`p = (0, 0)`; both branch expressions evaluate to `1` at the interface. -/
theorem C8_phi_continuous_witness :
    phiLayer1 1 1 1 0 1 = 1 ∧ phiLayer2 1 1 1 0 1 = 1 := by
  obtain ⟨heq, h1, _⟩ := C8_phi_continuous ⟨0, 0⟩ 1 1 1 (by norm_num)
  have hv : Real.pi * (0 : ℝ) / 1 + 1 = 1 := by simp
  exact ⟨h1.trans hv, (heq.symm.trans h1).trans hv⟩

/-! ### C7: the divided-by-zero guards in `B_field`

`compute_field.py` lines 69-92, per evaluation point, after the
transformation into the coil frame has produced coordinates `(x, y, z)`:
polar coordinates `rho`/`theta` (with the `theta[y == 0] = pi/2`
override), the elliptic-integral field expressions, and the
`Brho[dist == 0] = 0`, `Brho[rho == 0] = 0`, `Bz[dist == 0] = 0`
overrides. The elliptic integrals `scipy.special.ellipe`/`ellipk` are
external and appear as the abstract functions `E` and `K`. -/

/-- `rho = sqrt(x**2 + y**2)` (line 72). -/
noncomputable def rho (x y : ℝ) : ℝ := Real.sqrt (x ^ 2 + y ^ 2)

open Classical in
/-- `theta = arctan(x / y)` with the `theta[y == 0] = pi / 2` override
(lines 73-75). -/
noncomputable def theta (x y : ℝ) : ℝ :=
  if y = 0 then Real.pi / 2 else Real.arctan (x / y)

/-- `dist = (R - rho)**2 + z**2` (line 79). -/
noncomputable def dist (R rh z : ℝ) : ℝ := (R - rh) ^ 2 + z ^ 2

/-- The argument of the elliptic integrals (lines 77-78). -/
noncomputable def ellipArg (R rh z : ℝ) : ℝ := 4 * R * rh / ((R + rh) ^ 2 + z ^ 2)

/-- The unguarded `Bz` expression (lines 80-83). -/
noncomputable def BzRaw (E K : ℝ → ℝ) (R rh z : ℝ) : ℝ :=
  1 / Real.sqrt ((R + rh) ^ 2 + z ^ 2) *
    (K (ellipArg R rh z) +
      E (ellipArg R rh z) * (R ^ 2 - rh ^ 2 - z ^ 2) / dist R rh z)

/-- The unguarded `Brho` expression (lines 84-87). -/
noncomputable def BrhoRaw (E K : ℝ → ℝ) (R rh z : ℝ) : ℝ :=
  z / (rh * Real.sqrt ((R + rh) ^ 2 + z ^ 2)) *
    (-K (ellipArg R rh z) +
      E (ellipArg R rh z) * (R ^ 2 + rh ^ 2 + z ^ 2) / dist R rh z)

open Classical in
/-- `Brho` after the masked assignments `Brho[dist == 0] = 0` (line 90)
and `Brho[rho == 0] = 0` (line 91): the later assignment wins where the
masks overlap, and both write `0`. -/
noncomputable def Brho (E K : ℝ → ℝ) (x y z R : ℝ) : ℝ :=
  if rho x y = 0 then 0
  else if dist R (rho x y) z = 0 then 0
  else BrhoRaw E K R (rho x y) z

open Classical in
/-- `Bz` after the masked assignment `Bz[dist == 0] = 0` (line 92). -/
noncomputable def Bz (E K : ℝ → ℝ) (x y z R : ℝ) : ℝ :=
  if dist R (rho x y) z = 0 then 0 else BzRaw E K R (rho x y) z

/-- C7: at every guarded point the overrides yield defined values: on the
coil axis (`rho = 0`) the radial component is exactly `0`; at the
singular distance (`dist = 0`) both `Brho` and `Bz` are exactly `0`; and
where `y = 0` the angle is set to `pi / 2`. -/
theorem C7_field_guards (E K : ℝ → ℝ) (x y z R : ℝ) :
    (rho x y = 0 → Brho E K x y z R = 0) ∧
    (dist R (rho x y) z = 0 → Brho E K x y z R = 0 ∧ Bz E K x y z R = 0) ∧
    (y = 0 → theta x y = Real.pi / 2) := by
  refine ⟨?_, ?_, ?_⟩
  · intro h
    unfold Brho
    rw [if_pos h]
  · intro h
    constructor
    · unfold Brho
      by_cases hr : rho x y = 0
      · rw [if_pos hr]
      · rw [if_neg hr, if_pos h]
    · unfold Bz
      rw [if_pos h]
  · intro h
    unfold theta
    rw [if_pos h]

/-- C7 witness: the theorem evaluated at the origin with `R = 0` (all
three guards active) and the zero elliptic integrals. -/
theorem C7_field_guards_witness :
    rho 0 0 = 0 ∧ dist 0 (rho 0 0) 0 = 0 ∧
    Brho (fun _ => 0) (fun _ => 0) 0 0 0 0 = 0 ∧
    Bz (fun _ => 0) (fun _ => 0) 0 0 0 0 = 0 ∧
    theta 0 0 = Real.pi / 2 := by
  have hrho : rho 0 0 = 0 := by
    unfold rho
    norm_num
  have hdist : dist 0 (rho 0 0) 0 = 0 := by
    rw [hrho]
    unfold dist
    norm_num
  have h := C7_field_guards (fun _ => 0) (fun _ => 0) 0 0 0 0
  exact ⟨hrho, hdist, h.1 hrho, (h.2.1 hdist).2, h.2.2 rfl⟩

/-! ### C6: `base_vectors` returns an orthonormal frame -/

/-- A 3-vector, as handled by `compute_field.py`. -/
structure Vec3 where
  x : ℝ
  y : ℝ
  z : ℝ

/-- The euclidean dot product of two 3-vectors. -/
noncomputable def dot (a b : Vec3) : ℝ := a.x * b.x + a.y * b.y + a.z * b.z

/-- `np.cross` on 3-vectors (`base_vectors` line 30). -/
noncomputable def cross (a b : Vec3) : Vec3 :=
  ⟨a.y * b.z - a.z * b.y, a.z * b.x - a.x * b.z, a.x * b.y - a.y * b.x⟩

/-- `np.square(v).sum(axis=-1)`: the squared euclidean norm. -/
noncomputable def norm2 (v : Vec3) : ℝ := v.x ^ 2 + v.y ^ 2 + v.z ^ 2

/-- Componentwise division of a vector by a scalar. -/
noncomputable def vdiv (v : Vec3) (c : ℝ) : Vec3 := ⟨v.x / c, v.y / c, v.z / c⟩

/-- Scalar multiple of a vector. -/
noncomputable def smul (c : ℝ) (v : Vec3) : Vec3 := ⟨c * v.x, c * v.y, c * v.z⟩

/-- `v / np.sqrt(np.square(v).sum(axis=-1))` (`base_vectors` lines 20
and 29). -/
noncomputable def normalize (v : Vec3) : Vec3 := vdiv v (Real.sqrt (norm2 v))

open Classical in
/-- The arbitrary perpendicular choice of `base_vectors` lines 24-27:
`[n2, 0, -n0]` when `abs(n[0]) == 1`, else `[0, n2, -n1]`. -/
noncomputable def perpChoice (n : Vec3) : Vec3 :=
  if |n.x| = 1 then ⟨n.z, 0, -n.x⟩ else ⟨0, n.z, -n.y⟩

/-- `base_vectors` (`compute_field.py` lines 16-31): normalize `n`,
choose and normalize a perpendicular `l`, return `(n, l, n x l)`. -/
noncomputable def base_vectors (n : Vec3) : Vec3 × Vec3 × Vec3 :=
  let nn := normalize n
  let l := normalize (perpChoice nn)
  (nn, l, cross nn l)

theorem norm2_vdiv (v : Vec3) (c : ℝ) : norm2 (vdiv v c) = norm2 v / c ^ 2 := by
  unfold norm2 vdiv
  rw [div_pow, div_pow, div_pow, div_add_div_same, div_add_div_same]

theorem norm2_pos {v : Vec3} (h : v ≠ ⟨0, 0, 0⟩) : 0 < norm2 v := by
  have h0 : 0 ≤ norm2 v := by unfold norm2; positivity
  rcases h0.lt_or_eq with hlt | heq
  · exact hlt
  · exfalso
    apply h
    have heq' : v.x ^ 2 + v.y ^ 2 + v.z ^ 2 = 0 := by
      unfold norm2 at heq
      linarith
    have hx : v.x = 0 := by
      nlinarith [sq_nonneg v.x, sq_nonneg v.y, sq_nonneg v.z]
    have hy : v.y = 0 := by
      nlinarith [sq_nonneg v.x, sq_nonneg v.y, sq_nonneg v.z]
    have hz : v.z = 0 := by
      nlinarith [sq_nonneg v.x, sq_nonneg v.y, sq_nonneg v.z]
    calc v = ⟨v.x, v.y, v.z⟩ := rfl
    _ = ⟨0, 0, 0⟩ := by rw [hx, hy, hz]

theorem norm2_normalize {v : Vec3} (h : 0 < norm2 v) :
    norm2 (normalize v) = 1 := by
  unfold normalize
  rw [norm2_vdiv, Real.sq_sqrt h.le, div_self h.ne']

theorem normalize_eq_smul (v : Vec3) :
    normalize v = smul (Real.sqrt (norm2 v))⁻¹ v := by
  unfold normalize vdiv smul
  simp only [div_eq_inv_mul]

theorem dot_vdiv (a b : Vec3) (c : ℝ) : dot a (vdiv b c) = dot a b / c := by
  unfold dot vdiv
  simp only [div_eq_mul_inv]
  ring

theorem dot_perpChoice (n : Vec3) : dot n (perpChoice n) = 0 := by
  unfold perpChoice
  by_cases h : |n.x| = 1
  · rw [if_pos h]
    unfold dot
    ring
  · rw [if_neg h]
    unfold dot
    ring

theorem norm2_perpChoice_pos {n : Vec3} (h1 : norm2 n = 1) :
    0 < norm2 (perpChoice n) := by
  unfold perpChoice
  unfold norm2 at h1
  by_cases habs : |n.x| = 1
  · rw [if_pos habs]
    have hx2 : n.x ^ 2 = 1 := by
      have hsq := sq_abs n.x
      rw [habs] at hsq
      simpa using hsq.symm
    show 0 < n.z ^ 2 + (0 : ℝ) ^ 2 + (-n.x) ^ 2
    nlinarith [sq_nonneg n.z]
  · rw [if_neg habs]
    show 0 < (0 : ℝ) ^ 2 + n.z ^ 2 + (-n.y) ^ 2
    have h0 : 0 ≤ n.y ^ 2 + n.z ^ 2 := by positivity
    rcases h0.lt_or_eq with hlt | heq
    · nlinarith
    · exfalso
      have hx2 : n.x ^ 2 = 1 := by linarith
      have hx2' : n.x * n.x = 1 := by
        rw [← pow_two]
        exact hx2
      rcases mul_self_eq_one_iff.mp hx2' with hx | hx
      · exact habs (by rw [hx]; norm_num)
      · exact habs (by rw [hx]; norm_num)

theorem dot_cross_left (a b : Vec3) : dot a (cross a b) = 0 := by
  unfold dot cross
  ring

theorem dot_cross_right (a b : Vec3) : dot b (cross a b) = 0 := by
  unfold dot cross
  ring

theorem norm2_cross (a b : Vec3) :
    norm2 (cross a b) = norm2 a * norm2 b - dot a b ^ 2 := by
  unfold norm2 cross dot
  ring

/-- C6: for every nonzero input, `base_vectors` returns three pairwise
orthogonal unit vectors; the first is the input scaled by a positive
factor, the first and second are orthogonal in both branches of the
conditional, and the third is exactly the cross product of the first
two. -/
theorem C6_base_vectors (n : Vec3) (h : n ≠ ⟨0, 0, 0⟩) :
    norm2 (base_vectors n).1 = 1 ∧
    norm2 (base_vectors n).2.1 = 1 ∧
    norm2 (base_vectors n).2.2 = 1 ∧
    dot (base_vectors n).1 (base_vectors n).2.1 = 0 ∧
    dot (base_vectors n).1 (base_vectors n).2.2 = 0 ∧
    dot (base_vectors n).2.1 (base_vectors n).2.2 = 0 ∧
    (∃ c : ℝ, 0 < c ∧ (base_vectors n).1 = smul c n) ∧
    (base_vectors n).2.2 = cross (base_vectors n).1 (base_vectors n).2.1 := by
  have hs : 0 < norm2 n := norm2_pos h
  have hn1 : norm2 (normalize n) = 1 := norm2_normalize hs
  have hperp : dot (normalize n) (perpChoice (normalize n)) = 0 :=
    dot_perpChoice _
  have hppos : 0 < norm2 (perpChoice (normalize n)) :=
    norm2_perpChoice_pos hn1
  have hl1 : norm2 (normalize (perpChoice (normalize n))) = 1 :=
    norm2_normalize hppos
  have hnl : dot (normalize n) (normalize (perpChoice (normalize n))) = 0 := by
    show dot (normalize n)
      (vdiv (perpChoice (normalize n))
        (Real.sqrt (norm2 (perpChoice (normalize n))))) = 0
    rw [dot_vdiv, hperp, zero_div]
  have hm1 : norm2 (cross (normalize n)
      (normalize (perpChoice (normalize n)))) = 1 := by
    rw [norm2_cross, hn1, hl1, hnl]
    ring
  refine ⟨hn1, hl1, hm1, hnl, dot_cross_left _ _, dot_cross_right _ _, ?_, rfl⟩
  refine ⟨(Real.sqrt (norm2 n))⁻¹, inv_pos.2 (Real.sqrt_pos.2 hs), ?_⟩
  exact normalize_eq_smul n

/-- C6 witness: the theorem evaluated at the coil normal `n = (0, 0, 1)`
of `compute_field.py`. -/
theorem C6_base_vectors_witness :
    (Vec3.mk 0 0 1 ≠ ⟨0, 0, 0⟩) ∧
    norm2 (base_vectors ⟨0, 0, 1⟩).1 = 1 ∧
    dot (base_vectors ⟨0, 0, 1⟩).1 (base_vectors ⟨0, 0, 1⟩).2.1 = 0 ∧
    (base_vectors ⟨0, 0, 1⟩).2.2 =
      cross (base_vectors ⟨0, 0, 1⟩).1 (base_vectors ⟨0, 0, 1⟩).2.1 :=
  have hne : Vec3.mk 0 0 1 ≠ ⟨0, 0, 0⟩ := fun hc =>
    one_ne_zero (congrArg Vec3.z hc)
  ⟨hne, (C6_base_vectors _ hne).1, (C6_base_vectors _ hne).2.2.2.1,
   (C6_base_vectors _ hne).2.2.2.2.2.2.2⟩

end PlotGallery
